import Mathlib

/-!
Shallow embedding of the LetsExtract cleaner core (src/cleaner.py together
with the constants of src/config.py).  Rows are records of four text fields,
tables are ordered lists of rows, and the cleaning pipeline is a pure
function from an input table to a cleaned table plus a statistics record.
Python floats are modelled as exact rationals.
-/

namespace LetsExtract

/-! ### Python string primitives -/

/-- Lower-casing of a single character on the ASCII and Cyrillic alphabets,
modelling Python `str.lower` on the character set this program handles. -/
def pyLowerChar (c : Char) : Char :=
  if 65 ≤ c.toNat ∧ c.toNat ≤ 90 then Char.ofNat (c.toNat + 32)
  else if 1040 ≤ c.toNat ∧ c.toNat ≤ 1071 then Char.ofNat (c.toNat + 32)
  else if c.toNat = 1025 then Char.ofNat 1105
  else c

/-- Python `str.lower`. -/
def pyLower (s : String) : String := ⟨s.data.map pyLowerChar⟩

/-- Whitespace test used by Python `str.strip` (ASCII whitespace characters). -/
def isWs (c : Char) : Bool :=
  c.toNat = 32 || c.toNat = 9 || c.toNat = 10 || c.toNat = 13 ||
    c.toNat = 11 || c.toNat = 12

/-- Remove leading and trailing whitespace from a character list. -/
def stripChars (l : List Char) : List Char :=
  ((l.dropWhile isWs).reverse.dropWhile isWs).reverse

/-- Python `str.strip` with no argument. -/
def pyStrip (s : String) : String := ⟨stripChars s.data⟩

/-- Python `str.endswith`. -/
def pyEndsWith (s suffixStr : String) : Bool := decide (suffixStr.data <:+ s.data)

/-- Python `sub in s` substring containment. -/
def pyContains (s sub : String) : Bool := decide (sub.data <:+: s.data)

/-! ### Configuration constants (src/config.py) -/

/-- Accepted domain-zone suffixes (config.RUSSIAN_ZONES). -/
def RUSSIAN_ZONES : List String := [".ru", ".рф", ".su"]

/-- Search-engine marker substrings (config.SEARCH_ENGINE_DOMAINS). -/
def SEARCH_ENGINE_DOMAINS : List String :=
  ["search.yahoo", "search.brave", "google.com", "google.ru",
   "yandex.ru/search", "bing.com", "duckduckgo.com"]

/-- Required column names (config.REQUIRED_COLUMNS): Value, Domain, Title,
MetaDescription in the source language. -/
def REQUIRED_COLUMNS : List String :=
  ["Значение", "Домен", "Заголовок", "META Description"]

/-! ### Data model -/

/-- One row of the projected table: Value, Domain, Title, MetaDescription. -/
structure Row where
  value : String
  domain : String
  title : String
  metaDescription : String
deriving DecidableEq, Repr

/-- The raw table as read from the spreadsheet: a header of column names and
rows of cells given positionally under those columns. -/
structure DataFrame where
  columns : List String
  rows : List (List String)
deriving DecidableEq, Repr

/-- The statistics record accumulated by DataCleaner.clean_file (self.stats). -/
structure Stats where
  original : Nat
  removed_non_russian : Nat
  removed_search : Nat
  removed_duplicates : Nat
  removed_empty : Nat
  final : Nat
  removed_percentage : ℚ
deriving DecidableEq, Repr

/-- The dictionary self.stats as initialised at the top of clean_file. -/
def initStats (original_count : Nat) : Stats :=
  { original := original_count, removed_non_russian := 0, removed_search := 0,
    removed_duplicates := 0, removed_empty := 0, final := 0,
    removed_percentage := 0 }

/-- Cell lookup by column name (dataframe column indexing). -/
def DataFrame.cell (df : DataFrame) (row : List String) (col : String) : String :=
  match df.columns.findIdx? (fun c => c == col) with
  | some i => row.getD i ""
  | none => ""

/-- Project one raw row onto the four required columns (df[REQUIRED_COLUMNS]). -/
def projectRow (df : DataFrame) (row : List String) : Row :=
  { value := df.cell row "Значение"
    domain := df.cell row "Домен"
    title := df.cell row "Заголовок"
    metaDescription := df.cell row "META Description" }

/-- Column projection of the whole table (clean_file line 47). -/
def DataFrame.project (df : DataFrame) : List Row := df.rows.map (projectRow df)

/-! ### Cleaning stages (src/cleaner.py) -/

/-- DataCleaner._is_russian_domain. -/
def is_russian_domain (domain : String) : Bool :=
  let d := pyLower (pyStrip domain)
  RUSSIAN_ZONES.any (fun zone => pyEndsWith d zone)

/-- DataCleaner._is_search_engine_domain. -/
def is_search_engine_domain (domain : String) : Bool :=
  let d := pyLower (pyStrip domain)
  SEARCH_ENGINE_DOMAINS.any (fun exclusion => pyContains d exclusion)

/-- DataCleaner._filter_russian_domains: the mask lower-cases and strips the
Domain column, _is_russian_domain is applied to the mask, and the removed
count is the length difference. -/
def filter_russian_domains (rows : List Row) : List Row × Nat :=
  let filtered := rows.filter (fun r => is_russian_domain (pyStrip (pyLower r.domain)))
  (filtered, rows.length - filtered.length)

/-- DataCleaner._filter_search_engines: the mask lower-cases (without
stripping) the Domain column, rows where _is_search_engine_domain holds are
dropped, and the removed count is the number of mask hits. -/
def filter_search_engines (rows : List Row) : List Row × Nat :=
  (rows.filter (fun r => !(is_search_engine_domain (pyLower r.domain))),
   rows.countP (fun r => is_search_engine_domain (pyLower r.domain)))

/-- Worker for drop_duplicates(subset, keep first): keep a row when its
Domain has not been seen yet. -/
def dropDuplicatesGo (seen : List String) : List Row → List Row
  | [] => []
  | r :: rs =>
    if seen.contains r.domain then dropDuplicatesGo seen rs
    else r :: dropDuplicatesGo (r.domain :: seen) rs

/-- df.drop_duplicates(subset Домен, keep first) at clean_file line 59. -/
def drop_duplicates_by_domain (rows : List Row) : List Row :=
  dropDuplicatesGo [] rows

/-- The per-row update performed by _drop_empty_values: the Value and Domain
cells are replaced by their stripped forms. -/
def trimValueDomain (r : Row) : Row :=
  { r with value := pyStrip r.value, domain := pyStrip r.domain }

/-- DataCleaner._drop_empty_values: strip Value and Domain in place, keep
rows whose stripped Value and Domain are both nonempty, and report the
number of rows removed. -/
def drop_empty_values (rows : List Row) : List Row × Nat :=
  let cleaned := rows.map trimValueDomain
  let nonEmpty := cleaned.filter (fun r => r.value != "" && r.domain != "")
  (nonEmpty, cleaned.length - nonEmpty.length)

/-- The list of required columns absent from the table (``_validate_columns``
line 98). -/
def missingColumns (df : DataFrame) : List String :=
  REQUIRED_COLUMNS.filter (fun column => !(df.columns.contains column))

/-- The schema-error message raised by _validate_columns. -/
def validationError (missing : List String) : String :=
  "Отсутствуют обязательные колонки: " ++ String.intercalate ", " missing

/-- DataCleaner._validate_columns as a fallible computation: the raised
ValueError becomes the error branch. -/
def validate_columns (df : DataFrame) : Except String Unit :=
  if missingColumns df = [] then Except.ok ()
  else Except.error (validationError (missingColumns df))

/-- The stage chain of clean_file after validation and projection, returning
the cleaned rows and the completed statistics record. -/
def runPipeline (projected : List Row) (original_count : Nat) : List Row × Stats :=
  let s1 := filter_russian_domains projected
  let s2 := filter_search_engines s1.1
  let before_duplicates := s2.1.length
  let deduped := drop_duplicates_by_domain s2.1
  let s4 := drop_empty_values deduped
  let final_count := s4.1.length
  let removed_total := original_count - final_count
  (s4.1,
   { original := original_count
     removed_non_russian := s1.2
     removed_search := s2.2
     removed_duplicates := before_duplicates - deduped.length
     removed_empty := s4.2
     final := final_count
     removed_percentage :=
       if original_count = 0 then 0
       else (removed_total : ℚ) / (original_count : ℚ) * 100 })

/-- DataCleaner.clean_file: validation may fail (first component), and the
second component is the content of self.stats after the call returns or
raises.  On a schema error self.stats keeps the freshly initialised record
written before validation ran. -/
def clean_file (df : DataFrame) : Except String (List Row) × Stats :=
  if missingColumns df = [] then
    let p := runPipeline df.project df.rows.length
    (Except.ok p.1, p.2)
  else
    (Except.error (validationError (missingColumns df)), initStats df.rows.length)

/-! ### Statistics message (DataCleaner.get_stats_message) -/

/-- The fixed message returned when self.stats is still the empty dict. -/
def noStatsMessage : String := "Статистика недоступна."

/-- Fixed-point decimal rendering of a rational with two digits after the
point, modelling the Python format specifier .2f (round half to even). -/
def format2 (q : ℚ) : String :=
  let a : ℚ := if q < 0 then -q else q
  let scaled : ℚ := a * 100
  let fl : ℤ := scaled.floor
  let frac : ℚ := scaled - (fl : ℚ)
  let n : ℤ :=
    if frac > 1/2 then fl + 1
    else if frac < 1/2 then fl
    else if fl % 2 = 0 then fl else fl + 1
  let n0 : Nat := n.toNat
  let cents := n0 % 100
  let centsStr := if cents < 10 then "0" ++ toString cents else toString cents
  (if q < 0 ∧ n0 ≠ 0 then "-" else "") ++ toString (n0 / 100) ++ "." ++ centsStr

/-- The formatted report built by get_stats_message from a populated
self.stats record. -/
def statsMessageBody (s : Stats) : String :=
  "📊 Статистика обработки:\n" ++
      "• Исходное количество записей: " ++ toString s.original ++ "\n" ++
      "• Конечное количество записей: " ++ toString s.final ++ "\n" ++
      "• Удалено не-РФ доменов: " ++ toString s.removed_non_russian ++ "\n" ++
      "• Удалено поисковиков: " ++ toString s.removed_search ++ "\n" ++
      "• Удалено дублей: " ++ toString s.removed_duplicates ++ "\n" ++
      "• Удалено пустых записей: " ++ toString s.removed_empty ++ "\n" ++
      "• Процент удалённых записей: " ++ format2 s.removed_percentage ++ "%"

/-- DataCleaner.get_stats_message, with self.stats modelled as an optional
record (none is the empty dict a fresh instance starts with). -/
def get_stats_message (stats : Option Stats) : String :=
  match stats with
  | none => noStatsMessage
  | some s => statsMessageBody s

/-! ### Specification-side definitions

These follow the wording of the specification; the theorems below compare
them with the pipeline definitions translated from the source. -/

/-- Wording of the spec for the zone filter: keep a row when its Domain,
lower-cased and with surrounding whitespace trimmed, ends with one of the
configured zone suffixes. -/
def zoneKeepSpec (domain : String) : Bool :=
  RUSSIAN_ZONES.any (fun zone => pyEndsWith (pyStrip (pyLower domain)) zone)

/-- Wording of the spec for the search-engine filter: drop a row when its
lower-cased Domain contains one of the configured marker substrings. -/
def searchDropSpec (domain : String) : Bool :=
  SEARCH_ENGINE_DOMAINS.any (fun marker => pyContains (pyLower domain) marker)

/-- Wording of the spec for deduplication: keep only the first occurrence, in
original row order, of each distinct Domain value. -/
def keepFirstByDomain : List Row → List Row
  | [] => []
  | r :: rs => r :: keepFirstByDomain (rs.filter (fun x => x.domain != r.domain))
termination_by l => l.length
decreasing_by simp only [List.length_cons]; exact Nat.lt_succ_of_le (List.length_filter_le _ _)

/-- The cells of one row as written to the output spreadsheet (the four
required columns in order). -/
def rowToCells (r : Row) : List String :=
  [r.value, r.domain, r.title, r.metaDescription]

/-- The output table of a run, re-read as an input table: the four required
column headers and the cleaned rows. -/
def tableOfRows (rows : List Row) : DataFrame :=
  { columns := REQUIRED_COLUMNS, rows := rows.map rowToCells }

/-- The cleaned rows of a run (empty when the run failed). -/
def cleanedRowsOf (df : DataFrame) : List Row :=
  ((clean_file df).1).toOption.getD []

/-- Input fixture whose distinct as-read domains collapse to one domain after
trimming. -/
def dfFixtureDup : DataFrame :=
  { columns := REQUIRED_COLUMNS
    rows := [["x", "a.ru", "t1", "m1"], ["y", " a.ru", "t2", "m2"]] }

/-- Input fixture missing every required column. -/
def dfFixtureBad : DataFrame :=
  { columns := ["foo"], rows := [["a"], ["b"]] }

/-- A well-formed table with zero rows. -/
def dfFixtureEmpty : DataFrame :=
  { columns := REQUIRED_COLUMNS, rows := [] }

/-- The end-to-end example table of the specification. -/
def dfFixtureGood : DataFrame :=
  { columns := REQUIRED_COLUMNS
    rows := [["x", "shop.ru", "T1", "D1"], ["", "shop.ru", "T2", "D2"],
             ["y", "google.com", "T3", "D3"], ["z", "news.su", "T4", "D4"]] }

/-! ### Character-level lemmas -/

theorem toNat_ofNat_of_valid (n : Nat) (h : n.isValidChar) : (Char.ofNat n).toNat = n := by
  unfold Char.ofNat
  rw [dif_pos h]
  rfl

theorem isWs_false_of_ge (c : Char) (h : 33 ≤ c.toNat) : isWs c = false := by
  simp only [isWs, Bool.or_eq_false_iff, decide_eq_false_iff_not]
  omega

theorem pyLowerChar_eq_self {c : Char} (h1 : ¬(65 ≤ c.toNat ∧ c.toNat ≤ 90))
    (h2 : ¬(1040 ≤ c.toNat ∧ c.toNat ≤ 1071)) (h3 : ¬(c.toNat = 1025)) :
    pyLowerChar c = c := by
  unfold pyLowerChar
  rw [if_neg h1, if_neg h2, if_neg h3]

theorem isWs_pyLowerChar (c : Char) : isWs (pyLowerChar c) = isWs c := by
  unfold pyLowerChar
  split_ifs with h1 h2 h3
  · have hv : (c.toNat + 32).isValidChar := Or.inl (by omega)
    rw [isWs_false_of_ge _ (by rw [toNat_ofNat_of_valid _ hv]; omega),
      isWs_false_of_ge _ (by omega)]
  · have hv : (c.toNat + 32).isValidChar := Or.inl (by omega)
    rw [isWs_false_of_ge _ (by rw [toNat_ofNat_of_valid _ hv]; omega),
      isWs_false_of_ge _ (by omega)]
  · have hv : (1105 : Nat).isValidChar := Or.inl (by omega)
    rw [isWs_false_of_ge _ (by rw [toNat_ofNat_of_valid _ hv]; omega),
      isWs_false_of_ge _ (by omega)]
  · rfl

theorem pyLowerChar_pyLowerChar (c : Char) : pyLowerChar (pyLowerChar c) = pyLowerChar c := by
  by_cases h1 : 65 ≤ c.toNat ∧ c.toNat ≤ 90
  · have hv : (c.toNat + 32).isValidChar := Or.inl (by omega)
    have hc : pyLowerChar c = Char.ofNat (c.toNat + 32) := by
      unfold pyLowerChar; rw [if_pos h1]
    have ht : (pyLowerChar c).toNat = c.toNat + 32 := by
      rw [hc, toNat_ofNat_of_valid _ hv]
    exact pyLowerChar_eq_self (by omega) (by omega) (by omega)
  · by_cases h2 : 1040 ≤ c.toNat ∧ c.toNat ≤ 1071
    · have hv : (c.toNat + 32).isValidChar := Or.inl (by omega)
      have hc : pyLowerChar c = Char.ofNat (c.toNat + 32) := by
        unfold pyLowerChar; rw [if_neg h1, if_pos h2]
      have ht : (pyLowerChar c).toNat = c.toNat + 32 := by
        rw [hc, toNat_ofNat_of_valid _ hv]
      exact pyLowerChar_eq_self (by omega) (by omega) (by omega)
    · by_cases h3 : c.toNat = 1025
      · have hv : (1105 : Nat).isValidChar := Or.inl (by omega)
        have hc : pyLowerChar c = Char.ofNat 1105 := by
          unfold pyLowerChar; rw [if_neg h1, if_neg h2, if_pos h3]
        have ht : (pyLowerChar c).toNat = 1105 := by
          rw [hc, toNat_ofNat_of_valid _ hv]
        exact pyLowerChar_eq_self (by omega) (by omega) (by omega)
      · rw [pyLowerChar_eq_self h1 h2 h3, pyLowerChar_eq_self h1 h2 h3]

/-! ### dropWhile and strip lemmas -/

theorem dropWhile_head_false (p : Char → Bool) :
    ∀ (l : List Char) (x : Char) (xs : List Char), l.dropWhile p = x :: xs → p x = false
  | [], _, _, h => by simp at h
  | a :: l, x, xs, h => by
    by_cases hp : p a
    · rw [List.dropWhile_cons_of_pos hp] at h
      exact dropWhile_head_false p l x xs h
    · rw [List.dropWhile_cons_of_neg hp] at h
      rw [List.cons.injEq] at h
      rw [h.1] at hp
      simpa using hp

theorem dropWhile_dropWhile_self (p : Char → Bool) (l : List Char) :
    (l.dropWhile p).dropWhile p = l.dropWhile p := by
  cases h : l.dropWhile p with
  | nil => rfl
  | cons x xs =>
    rw [List.dropWhile_cons_of_neg]
    simp [dropWhile_head_false p l x xs h]

theorem stripChars_stripChars (l : List Char) : stripChars (stripChars l) = stripChars l := by
  have hpre : stripChars l <+: l.dropWhile isWs := by
    have h1 : ((l.dropWhile isWs).reverse.dropWhile isWs).reverse <+:
        (l.dropWhile isWs).reverse.reverse :=
      List.reverse_prefix.mpr (List.dropWhile_suffix isWs)
    rwa [List.reverse_reverse] at h1
  have hlead : (stripChars l).dropWhile isWs = stripChars l := by
    cases hs : stripChars l with
    | nil => rfl
    | cons x xs =>
      obtain ⟨t, ht⟩ := hpre
      rw [hs] at ht
      have hx : isWs x = false := dropWhile_head_false isWs l x (xs ++ t) ht.symm
      rw [List.dropWhile_cons_of_neg (by simp [hx])]
  calc stripChars (stripChars l)
      = (((stripChars l).dropWhile isWs).reverse.dropWhile isWs).reverse := rfl
    _ = ((stripChars l).reverse.dropWhile isWs).reverse := by rw [hlead]
    _ = ((((l.dropWhile isWs).reverse.dropWhile isWs).reverse).reverse.dropWhile isWs).reverse :=
        rfl
    _ = (((l.dropWhile isWs).reverse.dropWhile isWs).dropWhile isWs).reverse := by
        rw [List.reverse_reverse]
    _ = ((l.dropWhile isWs).reverse.dropWhile isWs).reverse := by
        rw [dropWhile_dropWhile_self]
    _ = stripChars l := rfl

theorem dropWhile_isWs_map_pyLowerChar (l : List Char) :
    (l.map pyLowerChar).dropWhile isWs = (l.dropWhile isWs).map pyLowerChar := by
  rw [List.dropWhile_map]
  have hf : (isWs ∘ pyLowerChar) = isWs := funext (fun c => isWs_pyLowerChar c)
  rw [hf]

theorem stripChars_map_pyLowerChar (l : List Char) :
    stripChars (l.map pyLowerChar) = (stripChars l).map pyLowerChar := by
  unfold stripChars
  rw [dropWhile_isWs_map_pyLowerChar, ← List.map_reverse, dropWhile_isWs_map_pyLowerChar,
    ← List.map_reverse]

/-! ### String-level normalization lemmas -/

theorem pyLower_pyLower (s : String) : pyLower (pyLower s) = pyLower s :=
  congrArg String.mk (by
    show (s.data.map pyLowerChar).map pyLowerChar = s.data.map pyLowerChar
    rw [List.map_map]
    exact List.map_congr_left (fun a _ => pyLowerChar_pyLowerChar a))

theorem pyStrip_pyStrip (s : String) : pyStrip (pyStrip s) = pyStrip s :=
  congrArg String.mk (stripChars_stripChars s.data)

theorem pyStrip_pyLower (s : String) : pyStrip (pyLower s) = pyLower (pyStrip s) :=
  congrArg String.mk (stripChars_map_pyLowerChar s.data)

/-- The double normalization performed by the zone-filter stage collapses to a
single lower-case-then-strip pass. -/
theorem normalize_collapse (d : String) :
    pyLower (pyStrip (pyStrip (pyLower d))) = pyStrip (pyLower d) := by
  rw [pyStrip_pyStrip, pyStrip_pyLower, pyLower_pyLower]

/-- The normalization performed by the search-engine stage collapses likewise. -/
theorem normalize_collapse_search (d : String) :
    pyLower (pyStrip (pyLower d)) = pyStrip (pyLower d) := by
  rw [pyStrip_pyLower, pyLower_pyLower]

/-- Re-normalizing an already stripped-and-lowered domain changes nothing. -/
theorem normalize_of_stripped (d : String) :
    pyStrip (pyLower (pyStrip d)) = pyStrip (pyLower d) := by
  rw [← pyStrip_pyLower, pyStrip_pyStrip, pyStrip_pyLower]

/-! ### Substring containment is unaffected by stripping -/

theorem stripChars_prefix (l : List Char) : stripChars l <+: l.dropWhile isWs := by
  have h1 : ((l.dropWhile isWs).reverse.dropWhile isWs).reverse <+:
      (l.dropWhile isWs).reverse.reverse :=
    List.reverse_prefix.mpr (List.dropWhile_suffix isWs)
  rwa [List.reverse_reverse] at h1

theorem stripChars_infix_self (l : List Char) : stripChars l <:+: l := by
  obtain ⟨t, ht⟩ := stripChars_prefix l
  obtain ⟨u, hu⟩ := List.dropWhile_suffix (l := l) isWs
  exact ⟨u, t, by rw [List.append_assoc, ht, hu]⟩

theorem infix_dropWhile_of_infix (p : Char → Bool) (sub : List Char) (hne : sub ≠ [])
    (hws : ∀ c ∈ sub, p c = false) :
    ∀ l : List Char, sub <:+: l → sub <:+: l.dropWhile p
  | [], h => by
    rw [List.infix_nil] at h
    exact absurd h hne
  | a :: t, h => by
    by_cases hp : p a
    · rw [List.dropWhile_cons_of_pos hp]
      apply infix_dropWhile_of_infix p sub hne hws t
      rcases List.infix_cons_iff.mp h with hpre | hinf
      · cases sub with
        | nil => exact absurd rfl hne
        | cons s0 stl =>
          rw [List.cons_prefix_cons] at hpre
          rw [← hpre.1] at hp
          rw [hws s0 (List.mem_cons_self s0 stl)] at hp
          exact absurd hp Bool.false_ne_true
      · exact hinf
    · rw [List.dropWhile_cons_of_neg hp]
      exact h

theorem infix_stripChars_of_infix (sub l : List Char) (hne : sub ≠ [])
    (hws : ∀ c ∈ sub, isWs c = false) (h : sub <:+: l) : sub <:+: stripChars l := by
  have h1 : sub <:+: l.dropWhile isWs := infix_dropWhile_of_infix isWs sub hne hws l h
  have h2 : sub.reverse <:+: (l.dropWhile isWs).reverse := List.reverse_infix.mpr h1
  have h3 : sub.reverse <:+: (l.dropWhile isWs).reverse.dropWhile isWs :=
    infix_dropWhile_of_infix isWs sub.reverse (by simpa using hne)
      (fun c hc => hws c (List.mem_reverse.mp hc)) _ h2
  have h4 := List.reverse_infix.mpr h3
  rw [List.reverse_reverse] at h4
  exact h4

theorem pyContains_pyStrip (t m : String) (hne : m.data ≠ [])
    (hws : ∀ c ∈ m.data, isWs c = false) :
    pyContains (pyStrip t) m = pyContains t m := by
  unfold pyContains
  rw [decide_eq_decide]
  constructor
  · intro h
    exact h.trans (stripChars_infix_self t.data)
  · intro h
    exact infix_stripChars_of_infix m.data t.data hne hws h

theorem any_congr_mem {α : Type} (l : List α) (p q : α → Bool)
    (h : ∀ a ∈ l, p a = q a) : l.any p = l.any q := by
  induction l with
  | nil => rfl
  | cons a t ih =>
    rw [List.any_cons, List.any_cons, h a (List.mem_cons_self a t),
      ih (fun b hb => h b (List.mem_cons_of_mem a hb))]

/-! ### Stage predicates versus the spec wording -/

theorem zone_pred_eq (d : String) :
    is_russian_domain (pyStrip (pyLower d)) = zoneKeepSpec d := by
  show RUSSIAN_ZONES.any (fun zone => pyEndsWith (pyLower (pyStrip (pyStrip (pyLower d)))) zone)
      = zoneKeepSpec d
  rw [normalize_collapse]
  rfl

theorem search_pred_eq (d : String) :
    is_search_engine_domain (pyLower d) = searchDropSpec d := by
  show SEARCH_ENGINE_DOMAINS.any
      (fun marker => pyContains (pyLower (pyStrip (pyLower d))) marker) = searchDropSpec d
  rw [normalize_collapse_search]
  apply any_congr_mem
  intro m hm
  fin_cases hm <;> exact pyContains_pyStrip (pyLower d) _ (by decide) (by decide)

/-! ### Counting and filtering helpers -/

theorem countP_add_length_filter_not (p : Row → Bool) (l : List Row) :
    l.countP p + (l.filter (fun r => !(p r))).length = l.length := by
  induction l with
  | nil => rfl
  | cons a t ih =>
    by_cases h : p a
    · rw [List.countP_cons_of_pos _ _ h, List.filter_cons_of_neg (by simp [h]),
        List.length_cons]
      omega
    · rw [List.countP_cons_of_neg _ _ (by simp [h]), List.filter_cons_of_pos (by simp [h]),
        List.length_cons, List.length_cons]
      omega

theorem filter_russian_snd (rows : List Row) :
    (filter_russian_domains rows).2 + (filter_russian_domains rows).1.length = rows.length := by
  show rows.length
      - (rows.filter (fun r => is_russian_domain (pyStrip (pyLower r.domain)))).length
      + (rows.filter (fun r => is_russian_domain (pyStrip (pyLower r.domain)))).length
      = rows.length
  have := List.length_filter_le (fun r => is_russian_domain (pyStrip (pyLower r.domain))) rows
  omega

theorem filter_search_snd (rows : List Row) :
    (filter_search_engines rows).2 + (filter_search_engines rows).1.length = rows.length :=
  countP_add_length_filter_not (fun r => is_search_engine_domain (pyLower r.domain)) rows

theorem drop_empty_snd (l : List Row) :
    (drop_empty_values l).2 + (drop_empty_values l).1.length = l.length := by
  show (l.map trimValueDomain).length
      - ((l.map trimValueDomain).filter (fun r => r.value != "" && r.domain != "")).length
      + ((l.map trimValueDomain).filter (fun r => r.value != "" && r.domain != "")).length
      = l.length
  have h1 := List.length_filter_le (fun r : Row => r.value != "" && r.domain != "")
    (l.map trimValueDomain)
  rw [List.length_map] at h1 ⊢
  omega

/-! ### Deduplication lemmas -/

theorem dropDuplicatesGo_sublist : ∀ (seen : List String) (rows : List Row),
    List.Sublist (dropDuplicatesGo seen rows) rows
  | _, [] => List.Sublist.slnil
  | seen, r :: rs => by
    simp only [dropDuplicatesGo]
    by_cases h : seen.contains r.domain
    · rw [if_pos h]
      exact (dropDuplicatesGo_sublist seen rs).cons r
    · rw [if_neg h]
      exact (dropDuplicatesGo_sublist (r.domain :: seen) rs).cons₂ r

theorem bool_not_of_eq_true {b : Bool} (h : b = true) : ¬((!b) = true) := by
  rw [h]
  decide

theorem bool_not_true_of_ne {b : Bool} (h : ¬(b = true)) : (!b) = true := by
  rw [Bool.not_eq_true] at h
  rw [h]
  rfl

theorem dropDuplicatesGo_eq_keepFirst : ∀ (rows : List Row) (seen : List String),
    dropDuplicatesGo seen rows
      = keepFirstByDomain (rows.filter (fun r => !(seen.contains r.domain)))
  | [], _ => by simp [dropDuplicatesGo, keepFirstByDomain]
  | r :: rs, seen => by
    simp only [dropDuplicatesGo]
    by_cases h : seen.contains r.domain
    · rw [if_pos h, List.filter_cons, h, Bool.not_true, if_neg Bool.false_ne_true]
      exact dropDuplicatesGo_eq_keepFirst rs seen
    · have hf : seen.contains r.domain = false := by rwa [Bool.not_eq_true] at h
      rw [if_neg h, List.filter_cons, hf, Bool.not_false, if_pos rfl]
      simp only [keepFirstByDomain]
      congr 1
      have hfe : rs.filter (fun x => !((r.domain :: seen).contains x.domain))
          = (rs.filter (fun x => !(seen.contains x.domain))).filter
              (fun x => x.domain != r.domain) := by
        rw [List.filter_filter]
        apply List.filter_congr
        intro x _
        show (!((r.domain :: seen).contains x.domain))
            = ((x.domain != r.domain) && !(seen.contains x.domain))
        rw [List.contains_cons, Bool.not_or]
        rfl
      rw [dropDuplicatesGo_eq_keepFirst rs (r.domain :: seen), hfe]

theorem dropDuplicatesGo_eq_self : ∀ (rows : List Row) (seen : List String),
    (rows.map Row.domain).Nodup → (∀ r ∈ rows, seen.contains r.domain = false) →
    dropDuplicatesGo seen rows = rows
  | [], _, _, _ => rfl
  | r :: rs, seen, hnd, hseen => by
    simp only [dropDuplicatesGo]
    rw [if_neg (by rw [hseen r (List.mem_cons_self r rs)]; exact Bool.false_ne_true)]
    congr 1
    have hnd' : (r.domain :: rs.map Row.domain).Nodup := by simpa using hnd
    apply dropDuplicatesGo_eq_self rs (r.domain :: seen)
    · exact (List.nodup_cons.mp hnd').2
    · intro x hx
      have hne : x.domain ≠ r.domain := by
        intro he
        have hmem : x.domain ∈ rs.map Row.domain := List.mem_map_of_mem Row.domain hx
        rw [he] at hmem
        exact (List.nodup_cons.mp hnd').1 hmem
      rw [List.contains_cons, hseen x (List.mem_cons_of_mem r hx)]
      simp [hne]

/-- pandas drop_duplicates with keep first realises the keep-first-occurrence
reading of the spec. -/
theorem drop_duplicates_eq_keepFirst (rows : List Row) :
    drop_duplicates_by_domain rows = keepFirstByDomain rows := by
  rw [drop_duplicates_by_domain, dropDuplicatesGo_eq_keepFirst rows []]
  congr 1
  rw [List.filter_eq_self]
  intro a _
  rfl

/-! ### Pipeline projections -/

theorem runPipeline_fst (rows : List Row) (n : Nat) :
    (runPipeline rows n).1 = (drop_empty_values (drop_duplicates_by_domain
      ((filter_search_engines ((filter_russian_domains rows).1)).1))).1 := rfl

theorem runPipeline_original (rows : List Row) (n : Nat) :
    ((runPipeline rows n).2).original = n := rfl

theorem runPipeline_removed_non_russian (rows : List Row) (n : Nat) :
    ((runPipeline rows n).2).removed_non_russian = (filter_russian_domains rows).2 := rfl

theorem runPipeline_removed_search (rows : List Row) (n : Nat) :
    ((runPipeline rows n).2).removed_search
      = (filter_search_engines ((filter_russian_domains rows).1)).2 := rfl

theorem runPipeline_removed_duplicates (rows : List Row) (n : Nat) :
    ((runPipeline rows n).2).removed_duplicates
      = (filter_search_engines ((filter_russian_domains rows).1)).1.length
        - (drop_duplicates_by_domain
            ((filter_search_engines ((filter_russian_domains rows).1)).1)).length := rfl

theorem runPipeline_removed_empty (rows : List Row) (n : Nat) :
    ((runPipeline rows n).2).removed_empty
      = (drop_empty_values (drop_duplicates_by_domain
          ((filter_search_engines ((filter_russian_domains rows).1)).1))).2 := rfl

theorem runPipeline_final (rows : List Row) (n : Nat) :
    ((runPipeline rows n).2).final = (runPipeline rows n).1.length := rfl

theorem runPipeline_pct (rows : List Row) (n : Nat) :
    ((runPipeline rows n).2).removed_percentage
      = if n = 0 then 0
        else ((n - (runPipeline rows n).1.length : Nat) : ℚ) / (n : ℚ) * 100 := rfl

theorem clean_file_ok (df : DataFrame) (out : List Row) (st : Stats)
    (h : clean_file df = (Except.ok out, st)) :
    missingColumns df = [] ∧ out = (runPipeline df.project df.rows.length).1
      ∧ st = (runPipeline df.project df.rows.length).2 := by
  by_cases hm : missingColumns df = []
  · unfold clean_file at h
    rw [if_pos hm] at h
    injection h with h1 h2
    injection h1 with h1
    exact ⟨hm, h1.symm, h2.symm⟩
  · unfold clean_file at h
    rw [if_neg hm] at h
    injection h with h1 _
    injection h1

/-! ### Round trip through the output table -/

theorem project_tableOfRows (rows : List Row) : (tableOfRows rows).project = rows := by
  show (rows.map rowToCells).map (projectRow (tableOfRows rows)) = rows
  rw [List.map_map]
  have h : ∀ r ∈ rows, (projectRow (tableOfRows rows) ∘ rowToCells) r = id r :=
    fun r _ => rfl
  rw [List.map_congr_left h, List.map_id]

theorem missing_tableOfRows (rows : List Row) : missingColumns (tableOfRows rows) = [] := rfl

theorem rows_length_tableOfRows (rows : List Row) :
    (tableOfRows rows).rows.length = rows.length := by
  show (rows.map rowToCells).length = rows.length
  rw [List.length_map]

/-! ### Message head -/

theorem head?_append_of_head? (a b : String) (c : Char) (h : a.data.head? = some c) :
    (a ++ b).data.head? = some c := by
  rw [String.data_append]
  cases hd : a.data with
  | nil => rw [hd] at h; exact absurd h (by simp)
  | cons x xs =>
    rw [hd] at h
    rw [List.cons_append, List.head?_cons]
    rw [List.head?_cons] at h
    exact h

theorem stats_message_head (st : Stats) :
    (get_stats_message (some st)).data.head? = some '📊' := by
  show (statsMessageBody st).data.head? = some '📊'
  unfold statsMessageBody
  iterate 21 apply head?_append_of_head?
  rfl

/-! ### Output row facts -/

theorem mem_runPipeline_fst (rows : List Row) (n : Nat) (r' : Row)
    (h : r' ∈ (runPipeline rows n).1) :
    ∃ r, r ∈ rows ∧ trimValueDomain r = r' ∧
      is_russian_domain (pyStrip (pyLower r.domain)) = true ∧
      is_search_engine_domain (pyLower r.domain) = false ∧
      (r'.value != "" && r'.domain != "") = true := by
  rw [runPipeline_fst] at h
  have h1 : r' ∈ ((drop_duplicates_by_domain ((filter_search_engines
      ((filter_russian_domains rows).1)).1)).map trimValueDomain).filter
        (fun x => x.value != "" && x.domain != "") := h
  rw [List.mem_filter] at h1
  obtain ⟨h2, hq⟩ := h1
  rw [List.mem_map] at h2
  obtain ⟨r, hrD, htrim⟩ := h2
  have hrS2 : r ∈ (filter_search_engines ((filter_russian_domains rows).1)).1 :=
    (dropDuplicatesGo_sublist [] _).subset hrD
  have hrS2' : r ∈ ((filter_russian_domains rows).1).filter
      (fun x => !(is_search_engine_domain (pyLower x.domain))) := hrS2
  rw [List.mem_filter] at hrS2'
  obtain ⟨hrS1, hns⟩ := hrS2'
  have hrS1' : r ∈ rows.filter (fun x => is_russian_domain (pyStrip (pyLower x.domain))) := hrS1
  rw [List.mem_filter] at hrS1'
  obtain ⟨hrRows, hz⟩ := hrS1'
  refine ⟨r, hrRows, htrim, hz, ?_, hq⟩
  rwa [Bool.not_eq_true'] at hns

theorem zone_keep_of_trim (r : Row)
    (hz : is_russian_domain (pyStrip (pyLower r.domain)) = true) :
    is_russian_domain (pyStrip (pyLower (trimValueDomain r).domain)) = true := by
  show is_russian_domain (pyStrip (pyLower (pyStrip r.domain))) = true
  rw [normalize_of_stripped]
  exact hz

theorem search_drop_of_trim (r : Row)
    (hs : is_search_engine_domain (pyLower r.domain) = false) :
    is_search_engine_domain (pyLower (trimValueDomain r).domain) = false := by
  show SEARCH_ENGINE_DOMAINS.any
      (fun exclusion => pyContains (pyLower (pyStrip (pyLower (pyStrip r.domain)))) exclusion)
      = false
  rw [normalize_of_stripped]
  exact hs

theorem trimValueDomain_idem (r : Row) :
    trimValueDomain (trimValueDomain r) = trimValueDomain r := by
  show Row.mk (pyStrip (pyStrip r.value)) (pyStrip (pyStrip r.domain)) r.title r.metaDescription
      = Row.mk (pyStrip r.value) (pyStrip r.domain) r.title r.metaDescription
  rw [pyStrip_pyStrip, pyStrip_pyStrip]

/-! ### Stages acting on already-clean tables -/

theorem filter_russian_eq_self (l : List Row)
    (hz : ∀ r ∈ l, is_russian_domain (pyStrip (pyLower r.domain)) = true) :
    filter_russian_domains l = (l, 0) := by
  have h1 : l.filter (fun r => is_russian_domain (pyStrip (pyLower r.domain))) = l :=
    List.filter_eq_self.mpr hz
  show (l.filter (fun r => is_russian_domain (pyStrip (pyLower r.domain))),
    l.length - (l.filter (fun r => is_russian_domain (pyStrip (pyLower r.domain)))).length)
      = (l, 0)
  rw [h1, Nat.sub_self]

theorem filter_search_eq_self (l : List Row)
    (hs : ∀ r ∈ l, is_search_engine_domain (pyLower r.domain) = false) :
    filter_search_engines l = (l, 0) := by
  have h1 : l.filter (fun r => !(is_search_engine_domain (pyLower r.domain))) = l :=
    List.filter_eq_self.mpr (fun r hr => by rw [hs r hr]; rfl)
  have h2 : l.countP (fun r => is_search_engine_domain (pyLower r.domain)) = 0 :=
    List.countP_eq_zero.mpr (fun r hr => by simp [hs r hr])
  show (l.filter (fun r => !(is_search_engine_domain (pyLower r.domain))),
    l.countP (fun r => is_search_engine_domain (pyLower r.domain))) = (l, 0)
  rw [h1, h2]

theorem drop_empty_eq_self (l : List Row)
    (ht : ∀ r ∈ l, trimValueDomain r = r)
    (hq : ∀ r ∈ l, (r.value != "" && r.domain != "") = true) :
    drop_empty_values l = (l, 0) := by
  have hmap : l.map trimValueDomain = l := by
    have h0 : ∀ r ∈ l, trimValueDomain r = id r := fun r hr => ht r hr
    rw [List.map_congr_left h0, List.map_id]
  have hfil : l.filter (fun r => r.value != "" && r.domain != "") = l :=
    List.filter_eq_self.mpr hq
  show ((l.map trimValueDomain).filter (fun r => r.value != "" && r.domain != ""),
    (l.map trimValueDomain).length
      - ((l.map trimValueDomain).filter (fun r => r.value != "" && r.domain != "")).length)
      = (l, 0)
  rw [hmap, hfil, Nat.sub_self]

/-! ### Claim theorems -/

/-- C1: for every input table, after a successful cleaning run the final row
count plus the four removal counters (zone, search-engine, duplicate, empty)
equals the original row count, each counter measured at its own stage in the
fixed order. -/
theorem C1_stats_accounting (df : DataFrame) (out : List Row) (st : Stats)
    (h : clean_file df = (Except.ok out, st)) :
    st.final + st.removed_non_russian + st.removed_search + st.removed_duplicates
      + st.removed_empty = st.original ∧ st.original = df.rows.length := by
  obtain ⟨_, _, hst⟩ := clean_file_ok df out st h
  subst hst
  refine ⟨?_, runPipeline_original _ _⟩
  rw [runPipeline_final, runPipeline_removed_non_russian, runPipeline_removed_search,
    runPipeline_removed_duplicates, runPipeline_removed_empty, runPipeline_original,
    runPipeline_fst]
  have hA := filter_russian_snd df.project
  have hB := filter_search_snd ((filter_russian_domains df.project).1)
  have hC : (drop_duplicates_by_domain ((filter_search_engines
      ((filter_russian_domains df.project).1)).1)).length
      ≤ ((filter_search_engines ((filter_russian_domains df.project).1)).1).length :=
    (dropDuplicatesGo_sublist [] _).length_le
  have hD := drop_empty_snd (drop_duplicates_by_domain ((filter_search_engines
      ((filter_russian_domains df.project).1)).1))
  have hlen : df.project.length = df.rows.length := by
    show (df.rows.map (projectRow df)).length = df.rows.length
    rw [List.length_map]
  omega

/-- Witness for C1 at the end-to-end example table of the specification. -/
theorem C1_stats_accounting_witness :
    ((runPipeline dfFixtureGood.project dfFixtureGood.rows.length).2).final
      + ((runPipeline dfFixtureGood.project dfFixtureGood.rows.length).2).removed_non_russian
      + ((runPipeline dfFixtureGood.project dfFixtureGood.rows.length).2).removed_search
      + ((runPipeline dfFixtureGood.project dfFixtureGood.rows.length).2).removed_duplicates
      + ((runPipeline dfFixtureGood.project dfFixtureGood.rows.length).2).removed_empty
      = ((runPipeline dfFixtureGood.project dfFixtureGood.rows.length).2).original
    ∧ ((runPipeline dfFixtureGood.project dfFixtureGood.rows.length).2).original
      = dfFixtureGood.rows.length :=
  C1_stats_accounting dfFixtureGood
    (runPipeline dfFixtureGood.project dfFixtureGood.rows.length).1
    (runPipeline dfFixtureGood.project dfFixtureGood.rows.length).2 rfl

/-- C3: whenever at least one required column is absent, cleaning fails with
the schema error whose message joins the complete list of missing required
columns, and that list contains exactly the absent required columns. -/
theorem C3_schema_error_lists_all_missing (df : DataFrame)
    (h : ∃ c ∈ REQUIRED_COLUMNS, c ∉ df.columns) :
    validate_columns df = Except.error (validationError (missingColumns df)) ∧
    (clean_file df).1 = Except.error (validationError (missingColumns df)) ∧
    ∀ c, c ∈ missingColumns df ↔ (c ∈ REQUIRED_COLUMNS ∧ c ∉ df.columns) := by
  have hmem : ∀ c, c ∈ missingColumns df ↔ (c ∈ REQUIRED_COLUMNS ∧ c ∉ df.columns) := by
    intro c
    unfold missingColumns
    simp [List.mem_filter]
  have hne : missingColumns df ≠ [] := by
    obtain ⟨c, hc1, hc2⟩ := h
    intro hemp
    have hmm := (hmem c).mpr ⟨hc1, hc2⟩
    rw [hemp] at hmm
    exact (List.not_mem_nil c) hmm
  refine ⟨?_, ?_, hmem⟩
  · unfold validate_columns
    rw [if_neg hne]
  · unfold clean_file
    rw [if_neg hne]

/-- Witness for C3 at a table having none of the required columns. -/
theorem C3_schema_error_witness :
    (∃ c ∈ REQUIRED_COLUMNS, c ∉ dfFixtureBad.columns) ∧
    (validate_columns dfFixtureBad
        = Except.error (validationError (missingColumns dfFixtureBad)) ∧
      (clean_file dfFixtureBad).1
        = Except.error (validationError (missingColumns dfFixtureBad)) ∧
      ∀ c, c ∈ missingColumns dfFixtureBad
        ↔ (c ∈ REQUIRED_COLUMNS ∧ c ∉ dfFixtureBad.columns)) :=
  ⟨⟨"Значение", by decide, by decide⟩,
    C3_schema_error_lists_all_missing dfFixtureBad ⟨"Значение", by decide, by decide⟩⟩

/-- C4 counterexample: after a schema failure the summary string is the
formatted statistics report, not the fixed no-statistics message that the
claim requires. -/
theorem C4_counterexample :
    (clean_file dfFixtureBad).1 = Except.error (validationError REQUIRED_COLUMNS) ∧
    get_stats_message (some ((clean_file dfFixtureBad).2)) ≠ noStatsMessage := by
  refine ⟨rfl, by decide⟩

/-- C4 as amended: on failure no cleaned table is produced, but self.stats
keeps the record initialised at the start of the run (original count with all
other counters zero); the summary string then shows that record, and the
fixed no-statistics message appears only while self.stats is still empty. -/
theorem C4_failure_keeps_initialized_stats (df : DataFrame)
    (h : missingColumns df ≠ []) :
    (clean_file df).1 = Except.error (validationError (missingColumns df)) ∧
    (clean_file df).2 = initStats df.rows.length ∧
    get_stats_message (some ((clean_file df).2)) ≠ noStatsMessage ∧
    get_stats_message none = noStatsMessage := by
  have h1 : clean_file df
      = (Except.error (validationError (missingColumns df)), initStats df.rows.length) := by
    unfold clean_file
    rw [if_neg h]
  refine ⟨by rw [h1], by rw [h1], ?_, rfl⟩
  intro hcontra
  have hh := stats_message_head ((clean_file df).2)
  rw [hcontra] at hh
  exact absurd hh (by decide)

/-- Witness for the amended C4. -/
theorem C4_failure_witness :
    missingColumns dfFixtureBad ≠ [] ∧
    ((clean_file dfFixtureBad).1
        = Except.error (validationError (missingColumns dfFixtureBad)) ∧
      (clean_file dfFixtureBad).2 = initStats dfFixtureBad.rows.length ∧
      get_stats_message (some ((clean_file dfFixtureBad).2)) ≠ noStatsMessage ∧
      get_stats_message none = noStatsMessage) :=
  ⟨by decide, C4_failure_keeps_initialized_stats dfFixtureBad (by decide)⟩

/-- C5: the zone filter keeps a row exactly when its Domain, lower-cased and
trimmed, ends with one of the configured zone suffixes, and the suffix match
is exact on the four examples of the specification. -/
theorem C5_zone_filter :
    (∀ rows : List Row, (filter_russian_domains rows).1
        = rows.filter (fun r => zoneKeepSpec r.domain)) ∧
    zoneKeepSpec "shop.ru" = true ∧ zoneKeepSpec "ru.info" = false ∧
    zoneKeepSpec "example.su" = true ∧ zoneKeepSpec "example.suv" = false := by
  refine ⟨?_, by decide, by decide, by decide, by decide⟩
  intro rows
  show rows.filter (fun r => is_russian_domain (pyStrip (pyLower r.domain)))
      = rows.filter (fun r => zoneKeepSpec r.domain)
  apply List.filter_congr
  intro r _
  rw [zone_pred_eq]

/-- C6: among the rows reaching it, the search-engine stage drops a row
exactly when its lower-cased Domain contains a configured marker substring,
its removal counter counts exactly those rows, and the containment is
substring based as on the specification example. -/
theorem C6_search_filter :
    (∀ rows : List Row,
      (filter_search_engines rows).1 = rows.filter (fun r => !(searchDropSpec r.domain)) ∧
      (filter_search_engines rows).2 = rows.countP (fun r => searchDropSpec r.domain)) ∧
    searchDropSpec "www.google.com.proxy" = true := by
  refine ⟨?_, by decide⟩
  intro rows
  constructor
  · show rows.filter (fun r => !(is_search_engine_domain (pyLower r.domain))) = _
    apply List.filter_congr
    intro r _
    rw [search_pred_eq]
  · show rows.countP (fun r => is_search_engine_domain (pyLower r.domain)) = _
    apply List.countP_congr
    intro r _
    rw [search_pred_eq]

/-- C7: deduplication keeps exactly the first occurrence, in original row
order, of each distinct as-read Domain value; the comparison is
case-sensitive and unnormalized, and with equal domains at positions 1 and 5
only position 1 survives. -/
theorem C7_dedup_keeps_first :
    (∀ rows : List Row, drop_duplicates_by_domain rows = keepFirstByDomain rows) ∧
    drop_duplicates_by_domain
        [Row.mk "v1" "a.ru" "t1" "m1", Row.mk "v2" "b.ru" "t2" "m2",
         Row.mk "v3" "c.ru" "t3" "m3", Row.mk "v4" "d.ru" "t4" "m4",
         Row.mk "v5" "a.ru" "t5" "m5"]
      = [Row.mk "v1" "a.ru" "t1" "m1", Row.mk "v2" "b.ru" "t2" "m2",
         Row.mk "v3" "c.ru" "t3" "m3", Row.mk "v4" "d.ru" "t4" "m4"] ∧
    drop_duplicates_by_domain
        [Row.mk "v1" "a.ru" "t1" "m1", Row.mk "v2" "A.ru" "t2" "m2"]
      = [Row.mk "v1" "a.ru" "t1" "m1", Row.mk "v2" "A.ru" "t2" "m2"] ∧
    drop_duplicates_by_domain
        [Row.mk "v1" "a.ru" "t1" "m1", Row.mk "v2" " a.ru" "t2" "m2"]
      = [Row.mk "v1" "a.ru" "t1" "m1", Row.mk "v2" " a.ru" "t2" "m2"] :=
  ⟨drop_duplicates_eq_keepFirst, by decide, by decide, by decide⟩

/-- C8: the empty-value stage drops a row exactly when its trimmed Value or
trimmed Domain is empty, the surviving rows carry the trimmed Value and
Domain, and Title and MetaDescription are never touched nor tested. -/
theorem C8_empty_drop :
    ∀ rows : List Row,
      (drop_empty_values rows).1
        = (rows.filter
            (fun r => !(pyStrip r.value == "" || pyStrip r.domain == ""))).map
              trimValueDomain ∧
      (drop_empty_values rows).2
        = rows.countP (fun r => pyStrip r.value == "" || pyStrip r.domain == "") ∧
      ∀ r : Row, (trimValueDomain r).title = r.title
        ∧ (trimValueDomain r).metaDescription = r.metaDescription := by
  intro rows
  refine ⟨?_, ?_, fun r => ⟨rfl, rfl⟩⟩
  · show (rows.map trimValueDomain).filter (fun r => r.value != "" && r.domain != "") = _
    rw [List.filter_map]
    congr 1
    apply List.filter_congr
    intro r _
    show ((trimValueDomain r).value != "" && (trimValueDomain r).domain != "")
        = (!(pyStrip r.value == "" || pyStrip r.domain == ""))
    rw [Bool.not_or]
    rfl
  · have hfm : ((rows.map trimValueDomain).filter
        (fun r => r.value != "" && r.domain != "")).length
        = (rows.filter
            (fun r => !(pyStrip r.value == "" || pyStrip r.domain == ""))).length := by
      rw [List.filter_map, List.length_map]
      congr 1
      apply List.filter_congr
      intro r _
      show ((trimValueDomain r).value != "" && (trimValueDomain r).domain != "")
          = (!(pyStrip r.value == "" || pyStrip r.domain == ""))
      rw [Bool.not_or]
      rfl
    show (rows.map trimValueDomain).length
        - ((rows.map trimValueDomain).filter
            (fun r => r.value != "" && r.domain != "")).length
        = rows.countP (fun r => pyStrip r.value == "" || pyStrip r.domain == "")
    rw [hfm, List.length_map]
    have hcp : rows.countP (fun r => pyStrip r.value == "" || pyStrip r.domain == "")
        + (rows.filter
            (fun r => !(pyStrip r.value == "" || pyStrip r.domain == ""))).length
        = rows.length := countP_add_length_filter_not _ rows
    omega

/-- C2 counterexample: on a table whose two distinct as-read domains collapse
to one domain after trimming, the first run succeeds, yet re-running the
cleaner on its own output removes a duplicate, so the second run's dedup
counter is 1 and its final count differs from its original count. -/
theorem C2_counterexample :
    (clean_file dfFixtureDup).1.toOption
        = some [Row.mk "x" "a.ru" "t1" "m1", Row.mk "y" "a.ru" "t2" "m2"] ∧
    ((clean_file (tableOfRows (cleanedRowsOf dfFixtureDup))).2).removed_duplicates = 1 ∧
    ((clean_file (tableOfRows (cleanedRowsOf dfFixtureDup))).2).final = 1 ∧
    ((clean_file (tableOfRows (cleanedRowsOf dfFixtureDup))).2).original = 2 :=
  ⟨by decide, by decide, by decide, by decide⟩

/-- C2 as amended: re-running the cleaner on the output of a successful run
removes nothing at the zone, search-engine and empty-value stages, so only
deduplication can shrink the table, and the accounting reduces to final plus
dedup counter equals original; when the output's domains are pairwise
distinct (dedup removes nothing) the rerun is a true fixed point. -/
theorem C2_rerun_on_output (df : DataFrame) (out : List Row) (st : Stats)
    (h : clean_file df = (Except.ok out, st))
    (out' : List Row) (st' : Stats)
    (h' : clean_file (tableOfRows out) = (Except.ok out', st')) :
    st'.original = out.length ∧ st'.removed_non_russian = 0 ∧ st'.removed_search = 0 ∧
    st'.removed_empty = 0 ∧ st'.final + st'.removed_duplicates = st'.original ∧
    ((out.map Row.domain).Nodup →
      out' = out ∧ st'.removed_duplicates = 0 ∧ st'.final = st'.original) := by
  obtain ⟨_, hout, _⟩ := clean_file_ok df out st h
  obtain ⟨_, hout', hst'⟩ := clean_file_ok (tableOfRows out) out' st' h'
  rw [project_tableOfRows, rows_length_tableOfRows] at hout' hst'
  have hfacts : ∀ r' ∈ out, is_russian_domain (pyStrip (pyLower r'.domain)) = true ∧
      is_search_engine_domain (pyLower r'.domain) = false ∧
      trimValueDomain r' = r' ∧ (r'.value != "" && r'.domain != "") = true := by
    intro r' hr'
    rw [hout] at hr'
    obtain ⟨r, _, htrim, hz, hs, hq⟩ := mem_runPipeline_fst df.project df.rows.length r' hr'
    refine ⟨?_, ?_, ?_, hq⟩
    · rw [← htrim]
      exact zone_keep_of_trim r hz
    · rw [← htrim]
      exact search_drop_of_trim r hs
    · rw [← htrim]
      exact trimValueDomain_idem r
  have e1 : filter_russian_domains out = (out, 0) :=
    filter_russian_eq_self out (fun r hr => (hfacts r hr).1)
  have e2 : filter_search_engines out = (out, 0) :=
    filter_search_eq_self out (fun r hr => (hfacts r hr).2.1)
  have hsubD : ∀ r ∈ drop_duplicates_by_domain out, r ∈ out :=
    fun r hr => (dropDuplicatesGo_sublist [] out).subset hr
  have e4 : drop_empty_values (drop_duplicates_by_domain out)
      = (drop_duplicates_by_domain out, 0) :=
    drop_empty_eq_self _ (fun r hr => (hfacts r (hsubD r hr)).2.2.1)
      (fun r hr => (hfacts r (hsubD r hr)).2.2.2)
  have hDle : (drop_duplicates_by_domain out).length ≤ out.length :=
    (dropDuplicatesGo_sublist [] out).length_le
  have g0 : st'.original = out.length := by
    rw [hst', runPipeline_original]
  have g1 : st'.removed_non_russian = 0 := by
    rw [hst', runPipeline_removed_non_russian, e1]
  have g2 : st'.removed_search = 0 := by
    rw [hst', runPipeline_removed_search, e1]
    show (filter_search_engines out).2 = 0
    rw [e2]
  have gfinal_eq : (runPipeline out out.length).1 = drop_duplicates_by_domain out := by
    rw [runPipeline_fst, e1]
    show (drop_empty_values (drop_duplicates_by_domain
        ((filter_search_engines out).1))).1 = drop_duplicates_by_domain out
    rw [e2]
    show (drop_empty_values (drop_duplicates_by_domain out)).1 = drop_duplicates_by_domain out
    rw [e4]
  have g3 : st'.removed_empty = 0 := by
    rw [hst', runPipeline_removed_empty, e1]
    show (drop_empty_values (drop_duplicates_by_domain
        ((filter_search_engines out).1))).2 = 0
    rw [e2]
    show (drop_empty_values (drop_duplicates_by_domain out)).2 = 0
    rw [e4]
  have g4 : st'.final = (drop_duplicates_by_domain out).length := by
    rw [hst', runPipeline_final, gfinal_eq]
  have g5 : st'.removed_duplicates = out.length - (drop_duplicates_by_domain out).length := by
    rw [hst', runPipeline_removed_duplicates, e1]
    show (filter_search_engines out).1.length
        - (drop_duplicates_by_domain ((filter_search_engines out).1)).length
        = out.length - (drop_duplicates_by_domain out).length
    rw [e2]
  refine ⟨g0, g1, g2, g3, ?_, ?_⟩
  · rw [g4, g5, g0]
    omega
  · intro hnd
    have hDeq : drop_duplicates_by_domain out = out :=
      dropDuplicatesGo_eq_self out [] hnd (fun r _ => rfl)
    refine ⟨?_, ?_, ?_⟩
    · rw [hout', gfinal_eq, hDeq]
    · rw [g5, hDeq, Nat.sub_self]
    · rw [g4, g0, hDeq]

/-- Witness for the amended C2 at the end-to-end example table, whose output
domains are pairwise distinct. -/
theorem C2_rerun_witness :
    ((clean_file (tableOfRows (cleanedRowsOf dfFixtureGood))).2).original
        = (cleanedRowsOf dfFixtureGood).length ∧
    ((clean_file (tableOfRows (cleanedRowsOf dfFixtureGood))).2).removed_non_russian = 0 ∧
    ((clean_file (tableOfRows (cleanedRowsOf dfFixtureGood))).2).removed_search = 0 ∧
    ((clean_file (tableOfRows (cleanedRowsOf dfFixtureGood))).2).removed_empty = 0 ∧
    ((clean_file (tableOfRows (cleanedRowsOf dfFixtureGood))).2).final
        + ((clean_file (tableOfRows (cleanedRowsOf dfFixtureGood))).2).removed_duplicates
      = ((clean_file (tableOfRows (cleanedRowsOf dfFixtureGood))).2).original ∧
    (((cleanedRowsOf dfFixtureGood).map Row.domain).Nodup →
      cleanedRowsOf (tableOfRows (cleanedRowsOf dfFixtureGood)) = cleanedRowsOf dfFixtureGood ∧
      ((clean_file (tableOfRows (cleanedRowsOf dfFixtureGood))).2).removed_duplicates = 0 ∧
      ((clean_file (tableOfRows (cleanedRowsOf dfFixtureGood))).2).final
        = ((clean_file (tableOfRows (cleanedRowsOf dfFixtureGood))).2).original) :=
  C2_rerun_on_output dfFixtureGood (cleanedRowsOf dfFixtureGood)
    (clean_file dfFixtureGood).2 rfl
    (cleanedRowsOf (tableOfRows (cleanedRowsOf dfFixtureGood)))
    (clean_file (tableOfRows (cleanedRowsOf dfFixtureGood))).2 rfl

/-- C9: the removed percentage equals (original - final) / original * 100 on
a successful run, and a zero-row input yields 0.0 through the explicit guard
rather than a division by zero. -/
theorem C9_removed_percentage (df : DataFrame) (out : List Row) (st : Stats)
    (h : clean_file df = (Except.ok out, st)) :
    st.removed_percentage = (if st.original = 0 then (0 : ℚ)
      else ((st.original : ℚ) - (st.final : ℚ)) / (st.original : ℚ) * 100) ∧
    (st.original = 0 → st.removed_percentage = 0) := by
  obtain ⟨_, _, hst⟩ := clean_file_ok df out st h
  subst hst
  have hA := filter_russian_snd df.project
  have hB := filter_search_snd ((filter_russian_domains df.project).1)
  have hC : (drop_duplicates_by_domain ((filter_search_engines
      ((filter_russian_domains df.project).1)).1)).length
      ≤ ((filter_search_engines ((filter_russian_domains df.project).1)).1).length :=
    (dropDuplicatesGo_sublist [] _).length_le
  have hD := drop_empty_snd (drop_duplicates_by_domain ((filter_search_engines
      ((filter_russian_domains df.project).1)).1))
  have hlen : df.project.length = df.rows.length := by
    show (df.rows.map (projectRow df)).length = df.rows.length
    rw [List.length_map]
  have hle : (runPipeline df.project df.rows.length).1.length ≤ df.rows.length := by
    rw [runPipeline_fst]
    omega
  constructor
  · rw [runPipeline_pct, runPipeline_original, runPipeline_final]
    by_cases h0 : df.rows.length = 0
    · rw [if_pos h0, if_pos h0]
    · rw [if_neg h0, if_neg h0, Nat.cast_sub hle]
  · intro h0
    rw [runPipeline_original] at h0
    rw [runPipeline_pct, if_pos h0]

/-- Witness for C9 at the zero-row table: the percentage is 0 with no
division performed. -/
theorem C9_removed_percentage_witness :
    (((runPipeline dfFixtureEmpty.project dfFixtureEmpty.rows.length).2).removed_percentage
      = (if ((runPipeline dfFixtureEmpty.project dfFixtureEmpty.rows.length).2).original = 0
          then (0 : ℚ)
          else ((((runPipeline dfFixtureEmpty.project
                dfFixtureEmpty.rows.length).2).original : ℚ)
              - (((runPipeline dfFixtureEmpty.project
                  dfFixtureEmpty.rows.length).2).final : ℚ))
            / (((runPipeline dfFixtureEmpty.project
                dfFixtureEmpty.rows.length).2).original : ℚ) * 100)) ∧
    (((runPipeline dfFixtureEmpty.project dfFixtureEmpty.rows.length).2).original = 0
      → ((runPipeline dfFixtureEmpty.project
          dfFixtureEmpty.rows.length).2).removed_percentage = 0) :=
  C9_removed_percentage dfFixtureEmpty
    (runPipeline dfFixtureEmpty.project dfFixtureEmpty.rows.length).1
    (runPipeline dfFixtureEmpty.project dfFixtureEmpty.rows.length).2 rfl

/-- C10: every row of the cleaned output carries the Title and
MetaDescription of a corresponding input row unchanged, while its Value and
Domain are the trimmed forms of that input row's values: the trimming of the
empty-value stage persists into the output. -/
theorem C10_output_fields (df : DataFrame) (out : List Row) (st : Stats)
    (h : clean_file df = (Except.ok out, st)) :
    ∀ r' ∈ out, ∃ r ∈ df.project,
      r'.title = r.title ∧ r'.metaDescription = r.metaDescription ∧
      r'.value = pyStrip r.value ∧ r'.domain = pyStrip r.domain := by
  obtain ⟨_, hout, _⟩ := clean_file_ok df out st h
  subst hout
  intro r' hr'
  obtain ⟨r, hr, htrim, _, _, _⟩ := mem_runPipeline_fst df.project df.rows.length r' hr'
  refine ⟨r, hr, ?_, ?_, ?_, ?_⟩ <;> rw [← htrim] <;> rfl

/-- Witness for C10 at the end-to-end example table and its first output
row. -/
theorem C10_output_fields_witness :
    ∃ r ∈ dfFixtureGood.project,
      (Row.mk "x" "shop.ru" "T1" "D1").title = r.title ∧
      (Row.mk "x" "shop.ru" "T1" "D1").metaDescription = r.metaDescription ∧
      (Row.mk "x" "shop.ru" "T1" "D1").value = pyStrip r.value ∧
      (Row.mk "x" "shop.ru" "T1" "D1").domain = pyStrip r.domain :=
  C10_output_fields dfFixtureGood
    (runPipeline dfFixtureGood.project dfFixtureGood.rows.length).1
    (runPipeline dfFixtureGood.project dfFixtureGood.rows.length).2 rfl
    (Row.mk "x" "shop.ru" "T1" "D1") (by decide)

end LetsExtract
